import Mathlib

/-!
Verification of the paged KV-cache block manager of
`cpp/include/tensorrt_llm/batch_manager/kvCacheManager.h`.

Machine integers are modelled as `Nat` with explicit reduction modulo
`2 ^ 32` / `2 ^ 64` where the C++ code relies on fixed-width wraparound,
and as `Int` where the code uses signed 32-bit arithmetic far from the
overflow boundary (`SizeType32` counters).

Parts of the block manager whose implementation lives in
`kvCacheManager.cpp` (not part of the header-only sources) are modelled
from the specification; each such definition carries a doc comment
starting with `Modelled from the spec:`.
-/

namespace KVCache

/-- Modelled from the spec: a unique token is a `(token_id, extra_id)`
pair (`tensorrt_llm::runtime::UniqueToken`, whose definition is outside
the given sources; equality is structural per the spec glossary). -/
structure UniqueToken where
  tokenId : Nat
  tokenExtraId : Nat
deriving DecidableEq, Repr

/-- Embeds `BlockKey` from `kvCacheManager.h`: a LoRA task id together with the
ordered sequence of unique tokens the block holds. -/
structure BlockKey where
  loraTaskId : Nat
  uniqueTokens : List UniqueToken
deriving DecidableEq, Repr

/-- Structural equality on unique tokens, elementwise on both fields. -/
def utBeq (a b : UniqueToken) : Bool :=
  a.tokenId == b.tokenId && a.tokenExtraId == b.tokenExtraId

/-- Elementwise equality of unique-token vectors (`std::vector::operator==`). -/
def vecUtBeq : List UniqueToken → List UniqueToken → Bool
  | [], [] => true
  | a :: as_, b :: bs => utBeq a b && vecUtBeq as_ bs
  | _, _ => false

/-- Embeds `BlockKey::operator==` from `kvCacheManager.h` lines 60-63:
`loraTaskId == other.loraTaskId && uniqueTokens == other.uniqueTokens`. -/
def blockKeyBeq (a b : BlockKey) : Bool :=
  a.loraTaskId == b.loraTaskId && vecUtBeq a.uniqueTokens b.uniqueTokens

/-- One round of the 32-bit mixer used on `tokenId`:
`a = ((a >> 16) ^ a) * 0x45d9f3b` in `uint32_t` arithmetic. -/
def mix32round (a : Nat) : Nat :=
  (((a >>> 16) ^^^ a) * 0x45d9f3b) % (2 ^ 32)

/-- The full 32-bit hash of a token id from `BlockKeyHasher`
(`kvCacheManager.h` lines 76-79). The input is first truncated to
`uint32_t` as by `static_cast<uint32_t>`. -/
def mixTokenId (tokenId : Nat) : Nat :=
  let a := tokenId % (2 ^ 32)
  let a := mix32round a
  let a := mix32round a
  (a >>> 16) ^^^ a

/-- The 64-bit splitmix-style mixer used on `tokenExtraId` and
`loraTaskId` (`kvCacheManager.h` lines 81-84 and 90-93). -/
def mix64 (b0 : Nat) : Nat :=
  let b := b0 % (2 ^ 64)
  let b := ((b ^^^ (b >>> 30)) * 0xbf58476d1ce4e5b9) % (2 ^ 64)
  let b := ((b ^^^ (b >>> 27)) * 0x94d049bb133111eb) % (2 ^ 64)
  b ^^^ (b >>> 31)

/-- Seed combination step for the 32-bit token-id fold,
`seed ^= a + 0x9e3779b9 + (seed << 6) + (seed >> 2)` with `a` of type
`uint32_t` (`kvCacheManager.h` line 86): the C++ expression associates as
`((a + 0x9e3779b9) + (seed << 6)) + (seed >> 2)`, and its first addition
has two `unsigned int` operands (the literal `0x9e3779b9` does not fit in
`int`), so that partial sum wraps modulo `2 ^ 32` before being promoted
to `size_t`; the remaining additions are 64-bit. -/
def seedCombine32 (seed a : Nat) : Nat :=
  seed ^^^ (((a + 0x9e3779b9) % (2 ^ 32)
    + ((seed <<< 6) % (2 ^ 64)) + (seed >>> 2)) % (2 ^ 64))

/-- Seed combination step for a 64-bit value,
`seed ^= b + 0x9e3779b9 + (seed << 6) + (seed >> 2)` with `b` of type
`uint64_t` (`kvCacheManager.h` lines 87 and 95): here the literal is
promoted to `uint64_t`, so every addition is modulo `2 ^ 64`. -/
def seedCombine64 (seed b : Nat) : Nat :=
  seed ^^^ ((b + 0x9e3779b9 + ((seed <<< 6) % (2 ^ 64)) + (seed >>> 2)) % (2 ^ 64))

/-- Folding one unique token into the seed: the token id is mixed with
the 32-bit mixer and combined with the 32-bit-wrapping step, the extra id
with the 64-bit mixer and the 64-bit step, in that order
(`kvCacheManager.h` lines 74-88). -/
def hashFoldToken (seed : Nat) (ut : UniqueToken) : Nat :=
  let seed := seedCombine32 seed (mixTokenId ut.tokenId)
  seedCombine64 seed (mix64 ut.tokenExtraId)

/-- Embeds `BlockKeyHasher::operator()` from `kvCacheManager.h` lines 71-97:
seed starts at `uniqueTokens.size()`, every unique token is folded in,
and finally the mixed `loraTaskId` (a `uint64_t`) is combined with the
64-bit step. -/
def blockKeyHash (bk : BlockKey) : Nat :=
  let seed := bk.uniqueTokens.length % (2 ^ 64)
  let seed := bk.uniqueTokens.foldl hashFoldToken seed
  seedCombine64 seed (mix64 bk.loraTaskId)

theorem utBeq_iff (a b : UniqueToken) :
    utBeq a b = true ↔ a.tokenId = b.tokenId ∧ a.tokenExtraId = b.tokenExtraId := by
  simp [utBeq]

theorem vecUtBeq_iff (as_ bs : List UniqueToken) :
    vecUtBeq as_ bs = true ↔ as_ = bs := by
  induction as_ generalizing bs with
  | nil => cases bs <;> simp [vecUtBeq]
  | cons a as_ ih =>
    cases bs with
    | nil => simp [vecUtBeq]
    | cons b bs =>
      simp only [vecUtBeq, Bool.and_eq_true, ih, utBeq_iff, List.cons.injEq]
      constructor
      · rintro ⟨⟨h1, h2⟩, h3⟩
        exact ⟨by cases a; cases b; simp_all, h3⟩
      · rintro ⟨h1, h2⟩
        subst h1
        exact ⟨⟨rfl, rfl⟩, h2⟩

/-- Claim C9: BlockKey equality is structural — two keys are equal if and
only if their loraTaskId and their uniqueTokens sequences (token id and
extra id elementwise) are equal — and the hash is a deterministic function
of exactly those elements, so equal keys always hash to the same value. -/
theorem blockKey_structural_eq_and_hash (a b : BlockKey) :
    (blockKeyBeq a b = true ↔
      (a.loraTaskId = b.loraTaskId ∧
        a.uniqueTokens.length = b.uniqueTokens.length ∧
        ∀ i, ((a.uniqueTokens.get? i).map UniqueToken.tokenId =
                (b.uniqueTokens.get? i).map UniqueToken.tokenId ∧
              (a.uniqueTokens.get? i).map UniqueToken.tokenExtraId =
                (b.uniqueTokens.get? i).map UniqueToken.tokenExtraId))) ∧
    (blockKeyBeq a b = true → blockKeyHash a = blockKeyHash b) := by
  have hmain : blockKeyBeq a b = true ↔
      (a.loraTaskId = b.loraTaskId ∧ a.uniqueTokens = b.uniqueTokens) := by
    simp [blockKeyBeq, vecUtBeq_iff]
  constructor
  · rw [hmain]
    constructor
    · rintro ⟨h1, h2⟩
      exact ⟨h1, by rw [h2], fun i => by rw [h2]; exact ⟨rfl, rfl⟩⟩
    · rintro ⟨h1, hlen, helem⟩
      refine ⟨h1, ?_⟩
      apply List.ext_get?
      intro i
      rcases (helem i) with ⟨hid, hex⟩
      rcases ha : a.uniqueTokens.get? i with _ | ua
      · rcases hb : b.uniqueTokens.get? i with _ | ub
        · rfl
        · rw [ha, hb] at hid; simp at hid
      · rcases hb : b.uniqueTokens.get? i with _ | ub
        · rw [ha, hb] at hid; simp at hid
        · rw [ha, hb] at hid hex
          simp only [Option.map_some', Option.some.injEq] at hid hex
          cases ua; cases ub; simp_all
  · intro h
    rcases hmain.mp h with ⟨h1, h2⟩
    cases a; cases b; simp_all

/-- Evaluation witness for claim C9 at concrete keys. -/
theorem blockKey_structural_eq_and_hash_witness :
    blockKeyBeq ⟨3, [⟨5, 7⟩, ⟨9, 0⟩]⟩ ⟨3, [⟨5, 7⟩, ⟨9, 0⟩]⟩ = true ∧
    blockKeyHash ⟨3, [⟨5, 7⟩, ⟨9, 0⟩]⟩ = blockKeyHash ⟨3, [⟨5, 7⟩, ⟨9, 0⟩]⟩ :=
  ⟨by decide,
    (blockKey_structural_eq_and_hash ⟨3, [⟨5, 7⟩, ⟨9, 0⟩]⟩ ⟨3, [⟨5, 7⟩, ⟨9, 0⟩]⟩).2
      (by decide)⟩

/-- Trie parent reference: either the sentinel root (`mCachedBlocksRoot`)
or a block identified by its dense block id. -/
inductive ParentRef where
  | root : ParentRef
  | block : Nat → ParentRef
deriving DecidableEq, Repr

/-- Embeds `KVCacheBlock` metadata from `kvCacheManager.h` lines 172-199: pool
residency, the two reference counts, fullness, key, trie linkage.
The child map `mNextBlocks` is modelled as an association list; `prevBlock`
is `none` when the block is detached from the trie. -/
structure Block where
  isPrimary : Bool
  refCount : Nat
  schedRefCount : Nat
  isFull : Bool
  blockKey : BlockKey
  prevBlock : Option ParentRef
  nextBlocks : List (BlockKey × Nat)
deriving DecidableEq, Repr

/-- Embeds `GenerationRequest` from `kvCacheManager.h` lines 202-283: token count,
beam width, and the per-beam lists of held block ids. -/
structure GenReq where
  numTokens : Nat
  beamWidth : Nat
  cacheBlockIds : List (List Nat)
deriving DecidableEq, Repr

/-- Error kinds of the failure-semantics table (spec section 4.5). -/
inductive KVErr where
  | invalidArgument : KVErr
  | capacityExhausted : KVErr
deriving DecidableEq, Repr

/-- Combined `BlockManager` + `KVCacheManager` state from
`kvCacheManager.h` lines 459-491 and 670-695: the block arena
`mAllBlocksById`, the two free queues, the trie root's child map, the
lifetime counters, the scheduling free-block counter, configuration, and
the sequence table. -/
structure KVState where
  blocks : List Block
  freePrimary : List Nat
  freeSecondary : List Nat
  rootNext : List (BlockKey × Nat)
  allocTotal : Nat
  allocNew : Nat
  reused : Nat
  schedNumFree : Nat
  tokensPerBlock : Nat
  maxBeamWidth : Nat
  maxNumSequences : Nat
  enableBlockReuse : Bool
  seqs : List (Option GenReq)
deriving DecidableEq, Repr

/-- Lookup of a child block id under a key in a child map
(`mNextBlocks.find`). -/
def lookupChild (m : List (BlockKey × Nat)) (k : BlockKey) : Option Nat :=
  (m.find? (fun kv => kv.1 == k)).map (fun kv => kv.2)

/-- Child map of a parent reference: the root's map or the named block's
`mNextBlocks` (empty if the id is out of range). -/
def childrenOf (s : KVState) (p : ParentRef) : List (BlockKey × Nat) :=
  match p with
  | .root => s.rootNext
  | .block id => ((s.blocks.get? id).map Block.nextBlocks).getD []

/-- Replace the block record stored at a given id. -/
def setBlock (s : KVState) (id : Nat) (b : Block) : KVState :=
  { s with blocks := s.blocks.set id b }

/-- Embeds `KVCacheBlock::addNextBlock`: link a child under a key in the parent's
child map. -/
def addChild (s : KVState) (p : ParentRef) (k : BlockKey) (id : Nat) : KVState :=
  match p with
  | .root => { s with rootNext := s.rootNext ++ [(k, id)] }
  | .block pid =>
    match s.blocks.get? pid with
    | none => s
    | some pb => setBlock s pid { pb with nextBlocks := pb.nextBlocks ++ [(k, id)] }

/-- Embeds `KVCacheBlock::removeNextBlock`: remove the entry under a key from the
parent's child map. -/
def removeChild (s : KVState) (p : ParentRef) (k : BlockKey) : KVState :=
  match p with
  | .root => { s with rootNext := s.rootNext.filter (fun kv => !(kv.1 == k)) }
  | .block pid =>
    match s.blocks.get? pid with
    | none => s
    | some pb =>
      setBlock s pid { pb with nextBlocks := pb.nextBlocks.filter (fun kv => !(kv.1 == k)) }

/-- Detach a block from its parent's child map, if it has a parent. -/
def unlinkParent (s : KVState) (b : Block) : KVState :=
  match b.prevBlock with
  | none => s
  | some p => removeChild s p b.blockKey

/-- Modelled from the spec: removal from the trie
(`prev.next.erase(key); prev = null; is_full = false`); the implementation
(`KVCacheBlock::freeLeafBlock` in `kvCacheManager.cpp`) is not among the
given sources. -/
def unlinkBlock (s : KVState) (id : Nat) : KVState :=
  match s.blocks.get? id with
  | none => s
  | some b => setBlock (unlinkParent s b) id { b with prevBlock := none, isFull := false }

/-- Embeds `BlockManager::releaseBlock` (`kvCacheManager.h` lines 320-322): put a
block back onto the free queue; appended by default, at the front when
`toFront` is true. -/
def releaseBlock (s : KVState) (id : Nat) (toFront : Bool) : KVState :=
  if toFront then { s with freePrimary := id :: s.freePrimary }
  else { s with freePrimary := s.freePrimary ++ [id] }

/-- Mark a stored block as linked: record parent, key and fullness
(`block.prev = parent; is_full = true; block_key = key`). -/
def storeLink (s : KVState) (p : ParentRef) (k : BlockKey) (id : Nat) : KVState :=
  match s.blocks.get? id with
  | none => s
  | some b => setBlock s id { b with prevBlock := some p, isFull := true, blockKey := k }

/-- Modelled from the spec: `store(parent, key, block)` of section 4.1 —
if the parent already holds a child under the key, the stored block is
discarded and the older resident kept; otherwise the block is linked
(`parent.next[key] = block` plus the `storeLink` marking). The
implementation (`BlockManager::storeBlocks` in `kvCacheManager.cpp`) is
not among the given sources. -/
def storeBlock (s : KVState) (p : ParentRef) (k : BlockKey) (id : Nat) : KVState :=
  match lookupChild (childrenOf s p) k with
  | some _ => s
  | none => storeLink (addChild s p k id) p k id

/-- Chop a token list into consecutive full chunks of `tpb` tokens,
dropping any trailing chunk that is not full ("the final partial block is
never keyed", spec section 4.3). The first argument is recursion fuel,
instantiated with the list length. -/
def chopFull (tpb : Nat) : Nat → List UniqueToken → List (List UniqueToken)
  | 0, _ => []
  | fuel + 1, l =>
    if 0 < tpb ∧ tpb ≤ l.length then l.take tpb :: chopFull tpb fuel (l.drop tpb)
    else []

/-- Full-block chunks of a token list. -/
def chopFullBlocks (tpb : Nat) (l : List UniqueToken) : List (List UniqueToken) :=
  chopFull tpb l.length l

/-- Modelled from the spec: the block keys computed by
`KVCacheManager::addSequence` — the full-block chunks of the first
`inputLength - 1` prompt tokens, each paired with the LoRA task id
(spec section 4.3 step 1; the header doc at `kvCacheManager.h` lines
595-596 says blocks are recovered for `inputLength - 1` tokens). The
implementation in `kvCacheManager.cpp` is not among the given sources. -/
def addSequenceBlockKeys (loraId : Nat) (tokens : List UniqueToken)
    (inputLength tpb : Nat) : List BlockKey :=
  (chopFullBlocks tpb (tokens.take (inputLength - 1))).map (fun ts => ⟨loraId, ts⟩)

/-- Modelled from the spec: trie lookup (`load`) of section 4.1 — walk from
the given child map following each key, stopping at the first miss, and
return the list of matched block ids. -/
def trieMatches (s : KVState) : List (BlockKey × Nat) → List BlockKey → List Nat
  | _, [] => []
  | cur, k :: rest =>
    match lookupChild cur k with
    | none => []
    | some id => id :: trieMatches s (childrenOf s (.block id)) rest

/-- Modelled from the spec: the `prepopulatedPromptLen` value written to the
request by `KVCacheManager::addSequence` when block reuse is enabled and a
request is supplied — each matched block contributes `tokensPerBlock`
reused tokens (spec sections 4.1 and 4.4). -/
def prepopulatedPromptLen (s : KVState) (loraId : Nat) (tokens : List UniqueToken)
    (inputLength : Nat) : Nat :=
  if s.enableBlockReuse then
    s.tokensPerBlock *
      (trieMatches s s.rootNext
        (addSequenceBlockKeys loraId tokens inputLength s.tokensPerBlock)).length
  else 0

theorem chopFull_length_mul (tpb : Nat) :
    ∀ (fuel : Nat) (l : List UniqueToken),
      tpb * (chopFull tpb fuel l).length ≤ l.length := by
  intro fuel
  induction fuel with
  | zero => intro l; simp [chopFull]
  | succ n ih =>
    intro l
    by_cases h : 0 < tpb ∧ tpb ≤ l.length
    · have hd := ih (l.drop tpb)
      rw [List.length_drop] at hd
      simp only [chopFull, if_pos h, List.length_cons]
      have : tpb * (chopFull tpb n (l.drop tpb)).length + tpb ≤ l.length := by omega
      calc tpb * ((chopFull tpb n (l.drop tpb)).length + 1)
          = tpb * (chopFull tpb n (l.drop tpb)).length + tpb := by ring
        _ ≤ l.length := this
    · simp [chopFull, if_neg h]

theorem chopFull_nil_of_short (tpb fuel : Nat) (l : List UniqueToken)
    (h : l.length < tpb) : chopFull tpb fuel l = [] := by
  cases fuel with
  | zero => rfl
  | succ n =>
    have : ¬ (0 < tpb ∧ tpb ≤ l.length) := by omega
    simp [chopFull, if_neg this]

theorem trieMatches_length_le (s : KVState) :
    ∀ (keys : List BlockKey) (cur : List (BlockKey × Nat)),
      (trieMatches s cur keys).length ≤ keys.length := by
  intro keys
  induction keys with
  | nil => intro cur; simp [trieMatches]
  | cons k rest ih =>
    intro cur
    simp only [trieMatches]
    cases lookupChild cur k with
    | none => simp
    | some id =>
      simp only [List.length_cons]
      exact Nat.succ_le_succ (ih _)

/-- Claim C1: with block reuse enabled and a request supplied,
`addSequence` writes a `prepopulatedPromptLen` of at most
`inputLength - 1`; in particular when `inputLength = tokensPerBlock` no
full block is reusable and the value is `0`. -/
theorem prepopulatedPromptLen_le (s : KVState) (loraId : Nat)
    (tokens : List UniqueToken) (inputLength : Nat) (h1 : 1 ≤ inputLength) :
    prepopulatedPromptLen s loraId tokens inputLength ≤ inputLength - 1 ∧
    (inputLength = s.tokensPerBlock →
      prepopulatedPromptLen s loraId tokens inputLength = 0) := by
  constructor
  · unfold prepopulatedPromptLen
    by_cases hr : s.enableBlockReuse
    · simp only [if_pos hr]
      set tpb := s.tokensPerBlock
      set keys := addSequenceBlockKeys loraId tokens inputLength tpb with hkeys
      have hm : (trieMatches s s.rootNext keys).length ≤ keys.length :=
        trieMatches_length_le s keys s.rootNext
      have hk : tpb * keys.length ≤ inputLength - 1 := by
        have h2 : tpb * (chopFullBlocks tpb (tokens.take (inputLength - 1))).length
            ≤ (tokens.take (inputLength - 1)).length :=
          chopFull_length_mul tpb _ _
        have h3 : (tokens.take (inputLength - 1)).length ≤ inputLength - 1 := by
          rw [List.length_take]; omega
        have h4 : keys.length
            = (chopFullBlocks tpb (tokens.take (inputLength - 1))).length := by
          rw [hkeys]; simp [addSequenceBlockKeys]
        rw [h4]; omega
      calc tpb * (trieMatches s s.rootNext keys).length
          ≤ tpb * keys.length := Nat.mul_le_mul_left tpb hm
        _ ≤ inputLength - 1 := hk
    · simp [if_neg hr]
  · intro heq
    unfold prepopulatedPromptLen
    by_cases hr : s.enableBlockReuse
    · simp only [if_pos hr]
      have hshort : (tokens.take (inputLength - 1)).length < s.tokensPerBlock := by
        rw [List.length_take]; omega
      have hnil : addSequenceBlockKeys loraId tokens inputLength s.tokensPerBlock = [] := by
        unfold addSequenceBlockKeys chopFullBlocks
        rw [chopFull_nil_of_short _ _ _ hshort]
        rfl
      rw [hnil]
      simp [trieMatches]
    · simp [if_neg hr]

/-- Evaluation witness for claim C1: a state whose trie holds one full
block for the first four tokens, a nine-token prompt with
tokensPerBlock 4; the reused length is 4 which is at most 8, and for an
input of exactly one block nothing is reused. -/
theorem prepopulatedPromptLen_le_witness :
    1 ≤ 9 ∧
    (prepopulatedPromptLen
        { blocks := [{ isPrimary := true, refCount := 0, schedRefCount := 0,
                       isFull := true,
                       blockKey := ⟨0, [⟨1, 0⟩, ⟨2, 0⟩, ⟨3, 0⟩, ⟨4, 0⟩]⟩,
                       prevBlock := some .root, nextBlocks := [] }],
          freePrimary := [0], freeSecondary := [],
          rootNext := [(⟨0, [⟨1, 0⟩, ⟨2, 0⟩, ⟨3, 0⟩, ⟨4, 0⟩]⟩, 0)],
          allocTotal := 0, allocNew := 0, reused := 0, schedNumFree := 0,
          tokensPerBlock := 4, maxBeamWidth := 1, maxNumSequences := 1,
          enableBlockReuse := true, seqs := [none] }
        0 [⟨1, 0⟩, ⟨2, 0⟩, ⟨3, 0⟩, ⟨4, 0⟩, ⟨5, 0⟩, ⟨6, 0⟩, ⟨7, 0⟩, ⟨8, 0⟩, ⟨9, 0⟩]
        9 ≤ 9 - 1) :=
  ⟨by decide,
    (prepopulatedPromptLen_le _ 0
      [⟨1, 0⟩, ⟨2, 0⟩, ⟨3, 0⟩, ⟨4, 0⟩, ⟨5, 0⟩, ⟨6, 0⟩, ⟨7, 0⟩, ⟨8, 0⟩, ⟨9, 0⟩]
      9 (by decide)).1⟩

/-- Modelled from the spec: the per-block step of
`BlockManager::releaseBlocks` (spec section 4.3) — decrement `ref_count`;
when it drops to zero, a full block with a supplied request key under
enabled reuse is filed into the trie and appended at the back of the free
queue, every other block loses its trie linkage and is pushed to the
front. The implementation in `kvCacheManager.cpp` is not among the given
sources; the front/back queueing uses `BlockManager::releaseBlock` whose
behaviour is documented in the header (lines 320-322). -/
def releaseOne (hasKey : Bool) (p : ParentRef) (k : BlockKey) (s : KVState)
    (id : Nat) : KVState :=
  match s.blocks.get? id with
  | none => s
  | some b =>
    if b.refCount = 1 then
      let s1 := setBlock s id { b with refCount := 0 }
      if b.isFull && hasKey && s.enableBlockReuse then
        releaseBlock (storeBlock s1 p k id) id false
      else
        releaseBlock (unlinkBlock s1 id) id true
    else
      setBlock s id { b with refCount := b.refCount - 1 }

theorem list_get?_set_self {α : Type} (l : List α) (i : Nat) (a : α)
    (h : i < l.length) : (l.set i a).get? i = some a := by
  induction l generalizing i with
  | nil => simp at h
  | cons x xs ih =>
    cases i with
    | zero => rfl
    | succ j => simpa using ih j (by simpa using h)

theorem setBlock_get?_self (s : KVState) (id : Nat) (b : Block)
    (h : id < s.blocks.length) : (setBlock s id b).blocks.get? id = some b := by
  show (s.blocks.set id b).get? id = some b
  exact list_get?_set_self _ _ _ h

theorem addChild_freePrimary (s : KVState) (p : ParentRef) (k : BlockKey)
    (id : Nat) : (addChild s p k id).freePrimary = s.freePrimary := by
  unfold addChild
  split
  · rfl
  · split <;> rfl

theorem addChild_blocks_length (s : KVState) (p : ParentRef) (k : BlockKey)
    (id : Nat) : (addChild s p k id).blocks.length = s.blocks.length := by
  unfold addChild
  split
  · rfl
  · split
    · rfl
    · simp [setBlock]

theorem removeChild_freePrimary (s : KVState) (p : ParentRef) (k : BlockKey) :
    (removeChild s p k).freePrimary = s.freePrimary := by
  unfold removeChild
  split
  · rfl
  · split <;> rfl

theorem removeChild_blocks_length (s : KVState) (p : ParentRef) (k : BlockKey) :
    (removeChild s p k).blocks.length = s.blocks.length := by
  unfold removeChild
  split
  · rfl
  · split
    · rfl
    · simp [setBlock]

theorem unlinkParent_freePrimary (s : KVState) (b : Block) :
    (unlinkParent s b).freePrimary = s.freePrimary := by
  unfold unlinkParent
  split
  · rfl
  · exact removeChild_freePrimary _ _ _

theorem unlinkParent_blocks_length (s : KVState) (b : Block) :
    (unlinkParent s b).blocks.length = s.blocks.length := by
  unfold unlinkParent
  split
  · rfl
  · exact removeChild_blocks_length _ _ _

theorem storeLink_freePrimary (s : KVState) (p : ParentRef) (k : BlockKey)
    (id : Nat) : (storeLink s p k id).freePrimary = s.freePrimary := by
  unfold storeLink
  split <;> rfl

theorem storeBlock_freePrimary (s : KVState) (p : ParentRef) (k : BlockKey)
    (id : Nat) : (storeBlock s p k id).freePrimary = s.freePrimary := by
  unfold storeBlock
  split
  · rfl
  · rw [storeLink_freePrimary]
    exact addChild_freePrimary s p k id

theorem unlinkBlock_freePrimary (s : KVState) (id : Nat) :
    (unlinkBlock s id).freePrimary = s.freePrimary := by
  unfold unlinkBlock
  split
  · rfl
  · exact unlinkParent_freePrimary _ _

theorem unlinkBlock_get_prev (s : KVState) (id : Nat) (b : Block)
    (hb : s.blocks.get? id = some b) :
    ((unlinkBlock s id).blocks.get? id).map Block.prevBlock = some none := by
  obtain ⟨hlt, -⟩ := List.get?_eq_some.mp hb
  unfold unlinkBlock
  rw [hb]
  rw [setBlock_get?_self _ _ _ (by rw [unlinkParent_blocks_length]; exact hlt)]
  rfl

/-- Claim C3: in `releaseBlocks`, a block whose refCount drops to zero is
appended at the back of the free queue exactly when it is full, a request
key was supplied and reuse is enabled; in every other case its trie
linkage is discarded and it is pushed to the front; a block whose
refCount stays positive is not enqueued at all. -/
theorem releaseOne_free_list (hasKey : Bool) (p : ParentRef) (k : BlockKey)
    (s : KVState) (id : Nat) (b : Block) (hb : s.blocks.get? id = some b) :
    (b.refCount = 1 →
      (releaseOne hasKey p k s id).freePrimary =
        (if b.isFull && hasKey && s.enableBlockReuse then s.freePrimary ++ [id]
         else id :: s.freePrimary) ∧
      ((b.isFull && hasKey && s.enableBlockReuse) = false →
        ((releaseOne hasKey p k s id).blocks.get? id).map Block.prevBlock =
          some none)) ∧
    (b.refCount ≠ 1 →
      (releaseOne hasKey p k s id).freePrimary = s.freePrimary) := by
  constructor
  · intro h1
    have hro : releaseOne hasKey p k s id =
        (if b.isFull && hasKey && s.enableBlockReuse then
          releaseBlock (storeBlock (setBlock s id { b with refCount := 0 }) p k id)
            id false
         else
          releaseBlock (unlinkBlock (setBlock s id { b with refCount := 0 }) id)
            id true) := by
      unfold releaseOne
      rw [hb]
      simp [h1]
    by_cases hc : (b.isFull && hasKey && s.enableBlockReuse) = true
    · rw [hro, if_pos hc, if_pos hc]
      constructor
      · show (releaseBlock _ id false).freePrimary = s.freePrimary ++ [id]
        rw [show (releaseBlock (storeBlock (setBlock s id { b with refCount := 0 })
            p k id) id false).freePrimary
            = (storeBlock (setBlock s id { b with refCount := 0 }) p k id).freePrimary
              ++ [id] by simp [releaseBlock]]
        rw [storeBlock_freePrimary]
        rfl
      · intro hcf; rw [hc] at hcf; cases hcf
    · have hc' : (b.isFull && hasKey && s.enableBlockReuse) = false := by
        revert hc; cases (b.isFull && hasKey && s.enableBlockReuse) <;> simp
      rw [hro, if_neg hc, if_neg hc]
      refine ⟨?_, ?_⟩
      · show (releaseBlock _ id true).freePrimary = id :: s.freePrimary
        rw [show (releaseBlock (unlinkBlock (setBlock s id { b with refCount := 0 })
            id) id true).freePrimary
            = id :: (unlinkBlock (setBlock s id { b with refCount := 0 })
                id).freePrimary by simp [releaseBlock]]
        rw [unlinkBlock_freePrimary]
        rfl
      · intro _
        obtain ⟨hlt, -⟩ := List.get?_eq_some.mp hb
        have hgb : (setBlock s id { b with refCount := 0 }).blocks.get? id
            = some { b with refCount := 0 } := by
          show (s.blocks.set id { b with refCount := 0 }).get? id = _
          exact list_get?_set_self _ _ _ hlt
        show ((releaseBlock (unlinkBlock (setBlock s id { b with refCount := 0 })
            id) id true).blocks.get? id).map Block.prevBlock = some none
        rw [show (releaseBlock (unlinkBlock (setBlock s id
            { b with refCount := 0 }) id) id true).blocks
            = (unlinkBlock (setBlock s id { b with refCount := 0 }) id).blocks
            by simp [releaseBlock]]
        exact unlinkBlock_get_prev _ id _ hgb
  · intro h1
    unfold releaseOne
    rw [hb]
    simp [h1, setBlock]

/-- Evaluation witness for claim C3: a full block with refCount one, a
request key and reuse enabled goes to the back of the free queue. -/
theorem releaseOne_free_list_witness :
    (({ blocks := [{ isPrimary := true, refCount := 1, schedRefCount := 0,
                     isFull := true, blockKey := ⟨0, []⟩,
                     prevBlock := none, nextBlocks := [] }],
        freePrimary := [5], freeSecondary := [], rootNext := [],
        allocTotal := 0, allocNew := 0, reused := 0, schedNumFree := 0,
        tokensPerBlock := 4, maxBeamWidth := 1, maxNumSequences := 1,
        enableBlockReuse := true, seqs := [none] } : KVState).blocks.get? 0
      = some { isPrimary := true, refCount := 1, schedRefCount := 0,
               isFull := true, blockKey := ⟨0, []⟩,
               prevBlock := none, nextBlocks := [] }) ∧
    (releaseOne true .root ⟨0, [⟨1, 0⟩]⟩
      { blocks := [{ isPrimary := true, refCount := 1, schedRefCount := 0,
                     isFull := true, blockKey := ⟨0, []⟩,
                     prevBlock := none, nextBlocks := [] }],
        freePrimary := [5], freeSecondary := [], rootNext := [],
        allocTotal := 0, allocNew := 0, reused := 0, schedNumFree := 0,
        tokensPerBlock := 4, maxBeamWidth := 1, maxNumSequences := 1,
        enableBlockReuse := true, seqs := [none] } 0).freePrimary = [5, 0] := by
  refine ⟨by decide, ?_⟩
  have h := (releaseOne_free_list true .root ⟨0, [⟨1, 0⟩]⟩
    { blocks := [{ isPrimary := true, refCount := 1, schedRefCount := 0,
                   isFull := true, blockKey := ⟨0, []⟩,
                   prevBlock := none, nextBlocks := [] }],
      freePrimary := [5], freeSecondary := [], rootNext := [],
      allocTotal := 0, allocNew := 0, reused := 0, schedNumFree := 0,
      tokensPerBlock := 4, maxBeamWidth := 1, maxNumSequences := 1,
      enableBlockReuse := true, seqs := [none] } 0
    { isPrimary := true, refCount := 1, schedRefCount := 0,
      isFull := true, blockKey := ⟨0, []⟩,
      prevBlock := none, nextBlocks := [] } (by decide)).1 (by decide)
  rw [h.1]
  decide

/-- Claim C4: when `storeBlocks` files a block under a parent and key for
which the parent already has a child, the newly stored block is discarded
(the state is unchanged, so the new block gains no trie linkage) and the
older resident block stays in the trie unchanged. -/
theorem storeBlock_collision_keeps_old (s : KVState) (p : ParentRef)
    (k : BlockKey) (newId oldId : Nat)
    (h : lookupChild (childrenOf s p) k = some oldId) :
    storeBlock s p k newId = s ∧
    lookupChild (childrenOf (storeBlock s p k newId) p) k = some oldId := by
  have h1 : storeBlock s p k newId = s := by unfold storeBlock; rw [h]
  exact ⟨h1, by rw [h1]; exact h⟩

/-- Evaluation witness for claim C4 with a one-entry root map. -/
theorem storeBlock_collision_keeps_old_witness :
    storeBlock
      { blocks := [], freePrimary := [], freeSecondary := [],
        rootNext := [(⟨0, [⟨1, 0⟩]⟩, 0)],
        allocTotal := 0, allocNew := 0, reused := 0, schedNumFree := 0,
        tokensPerBlock := 4, maxBeamWidth := 1, maxNumSequences := 1,
        enableBlockReuse := true, seqs := [] } .root ⟨0, [⟨1, 0⟩]⟩ 1 =
      { blocks := [], freePrimary := [], freeSecondary := [],
        rootNext := [(⟨0, [⟨1, 0⟩]⟩, 0)],
        allocTotal := 0, allocNew := 0, reused := 0, schedNumFree := 0,
        tokensPerBlock := 4, maxBeamWidth := 1, maxNumSequences := 1,
        enableBlockReuse := true, seqs := [] } :=
  (storeBlock_collision_keeps_old
    { blocks := [], freePrimary := [], freeSecondary := [],
      rootNext := [(⟨0, [⟨1, 0⟩]⟩, 0)],
      allocTotal := 0, allocNew := 0, reused := 0, schedNumFree := 0,
      tokensPerBlock := 4, maxBeamWidth := 1, maxNumSequences := 1,
      enableBlockReuse := true, seqs := [] } .root ⟨0, [⟨1, 0⟩]⟩ 1 0
    (by decide)).1

/-- Fuel-bounded search for a primary-memory descendant of a block in the
reuse trie (descending the `nextBlocks` child maps); fuel is instantiated
with the arena size, which bounds every acyclic descent. -/
def hasPrimaryDesc (blocks : List Block) : Nat → List (BlockKey × Nat) → Bool
  | 0, _ => false
  | fuel + 1, next =>
    next.any (fun kv =>
      match blocks.get? kv.2 with
      | none => false
      | some c => c.isPrimary || hasPrimaryDesc blocks fuel c.nextBlocks)

/-- The eviction-victim predicate of `BlockManager::findBestGPUBlockToFree`
(header doc, `kvCacheManager.h` lines 439-442): a primary block with no
primary-memory descendants in the trie. -/
def evictionCandidate (s : KVState) (id : Nat) : Bool :=
  match s.blocks.get? id with
  | none => false
  | some b => b.isPrimary && !(hasPrimaryDesc s.blocks s.blocks.length b.nextBlocks)

/-- Modelled from the spec: `BlockManager::findBestGPUBlockToFree` — "the
primary block that appears first in the queue and have no primary block
descendants" (header doc lines 439-442, spec section 4.2 step 2). The
implementation in `kvCacheManager.cpp` is not among the given sources; the
queue is scanned front to back for the first eviction candidate. -/
def findBestGPUBlockToFree (s : KVState) : Option Nat :=
  s.freePrimary.find? (evictionCandidate s)

theorem find?_eq_some_split {α : Type} (p : α → Bool) :
    ∀ (l : List α) (a : α), l.find? p = some a →
      p a = true ∧ ∃ l1 l2, l = l1 ++ a :: l2 ∧ ∀ x ∈ l1, p x = false := by
  intro l
  induction l with
  | nil => intro a h; simp [List.find?] at h
  | cons x xs ih =>
    intro a h
    by_cases hx : p x = true
    · rw [List.find?_cons_of_pos _ hx] at h
      cases h
      exact ⟨hx, [], xs, rfl, by simp⟩
    · have hx' : p x = false := by revert hx; cases p x <;> simp
      rw [List.find?_cons_of_neg _ (by simp [hx'])] at h
      obtain ⟨hp, l1, l2, heq, hall⟩ := ih a h
      refine ⟨hp, x :: l1, l2, by rw [heq]; rfl, ?_⟩
      intro y hy
      cases hy with
      | head => exact hx'
      | tail _ hy' => exact hall y hy'

/-- Claim C2: the eviction victim chosen by `findBestGPUBlockToFree` is
the earliest-in-queue primary block that has no primary-memory
descendants in the reuse trie. -/
theorem findBestGPUBlockToFree_earliest (s : KVState) (id : Nat)
    (h : findBestGPUBlockToFree s = some id) :
    evictionCandidate s id = true ∧
    ∃ l1 l2, s.freePrimary = l1 ++ id :: l2 ∧
      ∀ x ∈ l1, evictionCandidate s x = false :=
  find?_eq_some_split (evictionCandidate s) s.freePrimary id h

/-- Evaluation witness for claim C2: the queue holds a secondary-resident
block, then a primary block with a primary child, then a childless
primary block; the third is chosen. -/
theorem findBestGPUBlockToFree_earliest_witness :
    (findBestGPUBlockToFree
      { blocks := [{ isPrimary := false, refCount := 0, schedRefCount := 0,
                     isFull := true, blockKey := ⟨0, []⟩,
                     prevBlock := some .root, nextBlocks := [] },
                   { isPrimary := true, refCount := 0, schedRefCount := 0,
                     isFull := true, blockKey := ⟨1, []⟩,
                     prevBlock := some .root, nextBlocks := [(⟨2, []⟩, 2)] },
                   { isPrimary := true, refCount := 0, schedRefCount := 0,
                     isFull := true, blockKey := ⟨2, []⟩,
                     prevBlock := some (.block 1), nextBlocks := [] }],
        freePrimary := [0, 1, 2], freeSecondary := [], rootNext := [],
        allocTotal := 0, allocNew := 0, reused := 0, schedNumFree := 0,
        tokensPerBlock := 4, maxBeamWidth := 1, maxNumSequences := 1,
        enableBlockReuse := true, seqs := [none] } = some 2) ∧
    (∃ l1 l2,
      ({ blocks := [{ isPrimary := false, refCount := 0, schedRefCount := 0,
                      isFull := true, blockKey := ⟨0, []⟩,
                      prevBlock := some .root, nextBlocks := [] },
                    { isPrimary := true, refCount := 0, schedRefCount := 0,
                      isFull := true, blockKey := ⟨1, []⟩,
                      prevBlock := some .root, nextBlocks := [(⟨2, []⟩, 2)] },
                    { isPrimary := true, refCount := 0, schedRefCount := 0,
                      isFull := true, blockKey := ⟨2, []⟩,
                      prevBlock := some (.block 1), nextBlocks := [] }],
         freePrimary := [0, 1, 2], freeSecondary := [], rootNext := [],
         allocTotal := 0, allocNew := 0, reused := 0, schedNumFree := 0,
         tokensPerBlock := 4, maxBeamWidth := 1, maxNumSequences := 1,
         enableBlockReuse := true, seqs := [none] } : KVState).freePrimary
        = l1 ++ 2 :: l2 ∧
      ∀ x ∈ l1, evictionCandidate
        { blocks := [{ isPrimary := false, refCount := 0, schedRefCount := 0,
                       isFull := true, blockKey := ⟨0, []⟩,
                       prevBlock := some .root, nextBlocks := [] },
                     { isPrimary := true, refCount := 0, schedRefCount := 0,
                       isFull := true, blockKey := ⟨1, []⟩,
                       prevBlock := some .root, nextBlocks := [(⟨2, []⟩, 2)] },
                     { isPrimary := true, refCount := 0, schedRefCount := 0,
                       isFull := true, blockKey := ⟨2, []⟩,
                       prevBlock := some (.block 1), nextBlocks := [] }],
          freePrimary := [0, 1, 2], freeSecondary := [], rootNext := [],
          allocTotal := 0, allocNew := 0, reused := 0, schedNumFree := 0,
          tokensPerBlock := 4, maxBeamWidth := 1, maxNumSequences := 1,
          enableBlockReuse := true, seqs := [none] } x = false) :=
  ⟨by decide,
    (findBestGPUBlockToFree_earliest
      { blocks := [{ isPrimary := false, refCount := 0, schedRefCount := 0,
                     isFull := true, blockKey := ⟨0, []⟩,
                     prevBlock := some .root, nextBlocks := [] },
                   { isPrimary := true, refCount := 0, schedRefCount := 0,
                     isFull := true, blockKey := ⟨1, []⟩,
                     prevBlock := some .root, nextBlocks := [(⟨2, []⟩, 2)] },
                   { isPrimary := true, refCount := 0, schedRefCount := 0,
                     isFull := true, blockKey := ⟨2, []⟩,
                     prevBlock := some (.block 1), nextBlocks := [] }],
        freePrimary := [0, 1, 2], freeSecondary := [], rootNext := [],
        allocTotal := 0, allocNew := 0, reused := 0, schedNumFree := 0,
        tokensPerBlock := 4, maxBeamWidth := 1, maxNumSequences := 1,
        enableBlockReuse := true, seqs := [none] } 2 (by decide)).2⟩

/-- Embeds `KVCacheBlock::incRefCount` on the block stored at an id. -/
def incRefCount (s : KVState) (id : Nat) : KVState :=
  match s.blocks.get? id with
  | none => s
  | some b => setBlock s id { b with refCount := b.refCount + 1 }

/-- Counter bump for a fresh allocation: `mAllocTotalBlocks` and
`mAllocNewBlocks` both increment (spec section 4.3 counters). -/
def bumpFresh (s : KVState) : KVState :=
  { s with allocTotal := s.allocTotal + 1, allocNew := s.allocNew + 1 }

/-- Counter bump for a reuse hit: `mAllocTotalBlocks` and `mReusedBlocks`
both increment (spec section 4.3 counters). -/
def bumpReused (s : KVState) : KVState :=
  { s with allocTotal := s.allocTotal + 1, reused := s.reused + 1 }

/-- Modelled from the spec: `BlockManager::getFreeBlock` (section 4.2) —
pop the front of the primary free queue, detach it from the trie
(eviction), take a reference, and count a fresh allocation; `none` when
the queue is empty. The secondary-pool offload path (steps 2-3) and the
implementation in `kvCacheManager.cpp` are not among the given sources. -/
def getFreeBlock (s : KVState) : Option (Nat × KVState) :=
  match s.freePrimary with
  | [] => none
  | id :: rest =>
    some (id, bumpFresh (incRefCount (unlinkBlock { s with freePrimary := rest } id) id))

/-- Modelled from the spec: claiming a matched block for reuse by a new
owner (sections 4.1 removal and 4.3 step 2) — remove it from the free
queue, detach it from the trie, take a reference, and count a reuse
hit. -/
def claimReusedBlock (s : KVState) (id : Nat) : KVState :=
  bumpReused (incRefCount (unlinkBlock { s with freePrimary := s.freePrimary.erase id } id) id)

/-- Allocate up to `n` fresh blocks in sequence, returning the final state
and the allocated ids (stops early if the free queue empties). -/
def allocFreshBlocks : Nat → KVState → KVState × List Nat
  | 0, s => (s, [])
  | n + 1, s =>
    match getFreeBlock s with
    | none => (s, [])
    | some (id, s1) =>
      let r := allocFreshBlocks n s1
      (r.1, id :: r.2)

/-- Replace the sequence record stored at a slot. -/
def setSeq (s : KVState) (slot : Nat) (g : Option GenReq) : KVState :=
  { s with seqs := s.seqs.set slot g }

/-- The sequence record at a slot, if the slot is occupied. -/
def getSeq (s : KVState) (slot : Nat) : Option GenReq :=
  (s.seqs.get? slot).getD none

/-- Append one shared block id to every beam of the sequence at a slot
(`GenerationRequest::addCacheBlock` on each beam). -/
def appendBlockAllBeams (s : KVState) (slot : Nat) (id : Nat) : KVState :=
  match getSeq s slot with
  | none => s
  | some g =>
    setSeq s slot
      (some { g with cacheBlockIds := g.cacheBlockIds.map (fun beam => beam ++ [id]) })

/-- Modelled from the spec: `BlockManager::allocateBlock` with
`shareAmongBeams` — one fresh block appended to every beam; fails with
`CapacityExhausted` without mutating anything when no free block exists
(spec sections 4.3 and 4.5). The implementation in `kvCacheManager.cpp`
is not among the given sources. -/
def allocateBlockShared (s : KVState) (slot : Nat) : KVState × Option KVErr :=
  match getSeq s slot with
  | none => (s, some .invalidArgument)
  | some _ =>
    match getFreeBlock s with
    | none => (s, some .capacityExhausted)
    | some r => (appendBlockAllBeams r.2 slot r.1, none)

/-- Modelled from the spec: `KVCacheManager::addToken` — increment the
sequence's token count by one; when the new count crosses a block
boundary (`newCount % tokensPerBlock == 1`, spec section 4.4) allocate a
block for the beams. The implementation (`updateToken` in
`kvCacheManager.cpp`) is not among the given sources. -/
def addTokenOp (s : KVState) (slot : Nat) : KVState × Option KVErr :=
  match getSeq s slot with
  | none => (s, some .invalidArgument)
  | some g =>
    let s1 := setSeq s slot (some { g with numTokens := g.numTokens + 1 })
    if (g.numTokens + 1) % s.tokensPerBlock = 1 then allocateBlockShared s1 slot
    else (s1, none)

/-- Modelled from the spec: `KVCacheManager::addSequence` — validate the
arguments (`InvalidArgument` before any mutation, spec section 4.5),
compute the context-block demand, reuse the trie-matched prefix blocks,
allocate the remainder fresh, and record the sequence with the context
blocks shared across beams (spec section 4.3). The implementation in
`kvCacheManager.cpp` is not among the given sources. -/
def addSequenceOp (s : KVState) (slot inputLength beamWidth : Nat)
    (req : Option (Nat × List UniqueToken)) : KVState × Option KVErr :=
  if inputLength < 1 ∨ s.maxBeamWidth < beamWidth ∨ s.maxNumSequences ≤ slot then
    (s, some .invalidArgument)
  else
    let keys := match req with
      | some r =>
        if s.enableBlockReuse then
          addSequenceBlockKeys r.1 r.2 inputLength s.tokensPerBlock
        else []
      | none => []
    let matched := trieMatches s s.rootNext keys
    let numContextBlocks := (inputLength + s.tokensPerBlock - 1) / s.tokensPerBlock
    if s.freePrimary.length < numContextBlocks - matched.length then
      (s, some .capacityExhausted)
    else
      let s1 := matched.foldl claimReusedBlock s
      let r := allocFreshBlocks (numContextBlocks - matched.length) s1
      (setSeq r.1 slot
        (some { numTokens := inputLength, beamWidth := beamWidth,
                cacheBlockIds := List.replicate beamWidth (matched ++ r.2) }), none)

/-- Release the blocks of one beam in order, chaining the trie parents;
blocks beyond the key list are released without a key. -/
def releaseSeqBlocks : KVState → ParentRef → List Nat → List BlockKey → Bool → KVState
  | s, _, [], _, _ => s
  | s, parent, id :: ids', k :: keys', hasKey =>
    releaseSeqBlocks (releaseOne hasKey parent k s id) (.block id) ids' keys' hasKey
  | s, parent, id :: ids', [], _ =>
    releaseSeqBlocks (releaseOne false parent ⟨0, []⟩ s id) (.block id) ids' [] false

/-- Modelled from the spec: `KVCacheManager::removeSequence` — release the
sequence's blocks (spec section 4.3 `release_blocks`) and clear the slot.
The implementation in `kvCacheManager.cpp` is not among the given
sources. -/
def removeSequenceOp (s : KVState) (slot : Nat)
    (req : Option (Nat × List UniqueToken)) : KVState :=
  match getSeq s slot with
  | none => s
  | some g =>
    let keys := match req with
      | some r =>
        if s.enableBlockReuse then
          addSequenceBlockKeys r.1 r.2 g.numTokens s.tokensPerBlock
        else []
      | none => []
    setSeq (releaseSeqBlocks s .root (g.cacheBlockIds.headD []) keys req.isSome)
      slot none

/-- Modelled from the spec: `startScheduling` resets every block's
scheduling reference count and the scheduling free-block counter to their
real-state twins (spec sections 4.3 and design note on the two ref
counts; declared at `kvCacheManager.h` lines 123 and 311, implemented in
`kvCacheManager.cpp` which is not among the given sources). -/
def startSchedulingOp (s : KVState) : KVState :=
  { s with
    blocks := s.blocks.map (fun b => { b with schedRefCount := b.refCount }),
    schedNumFree := s.freePrimary.length }

/-- Modelled from the spec: the per-block step of
`schedulingReleaseBlocks` — the releaseBlocks accounting applied to
`schedulingRefCount` and `schedulingNumFreeBlocks` only. -/
def schedReleaseOne (s : KVState) (id : Nat) : KVState :=
  match s.blocks.get? id with
  | none => s
  | some b =>
    if b.schedRefCount = 1 then
      { setBlock s id { b with schedRefCount := 0 } with
          schedNumFree := s.schedNumFree + 1 }
    else setBlock s id { b with schedRefCount := b.schedRefCount - 1 }

/-- Modelled from the spec: `BlockManager::schedulingReleaseBlocks` over
the blocks of the sequence at a slot. -/
def schedulingReleaseBlocksOp (s : KVState) (slot : Nat) : KVState :=
  match getSeq s slot with
  | none => s
  | some g => (g.cacheBlockIds.headD []).foldl schedReleaseOne s

/-- Embeds `KvCacheStats` from `kvCacheManager.h` lines 102-111 (SizeType32
fields modelled as Int). -/
structure KvCacheStats where
  maxNumBlocks : Int
  freeNumBlocks : Int
  usedNumBlocks : Int
  toksPerBlock : Int
  allocTotalBlocks : Int
  allocNewBlocks : Int
  reusedBlocks : Int
deriving DecidableEq, Repr

/-- Embeds `BlockManager::getNumFreeBlocks` (`kvCacheManager.h` lines 339-342):
the size of the primary free queue only. -/
def getNumFreeBlocks (s : KVState) : Int := s.freePrimary.length

/-- Embeds `BlockManager::getMaxNumBlocks` (`kvCacheManager.h` lines 374-377):
the size of the `mAllBlocksById` arena. -/
def getMaxNumBlocks (s : KVState) : Int := s.blocks.length

/-- Embeds `BlockManager::getNumAllocatedBlocks` (`kvCacheManager.h` lines
359-362): `getMaxNumBlocks() - getNumFreeBlocks()`. -/
def getNumAllocatedBlocks (s : KVState) : Int :=
  getMaxNumBlocks s - getNumFreeBlocks s

/-- Embeds `KVCacheManager::getKvCacheStats` (`kvCacheManager.h` lines 550-562),
with the façade getters inlined onto the `BlockManager` getters they
delegate to. -/
def getKvCacheStats (s : KVState) : KvCacheStats :=
  { maxNumBlocks := getMaxNumBlocks s
    freeNumBlocks := getNumFreeBlocks s
    usedNumBlocks := getNumAllocatedBlocks s
    toksPerBlock := s.tokensPerBlock
    allocTotalBlocks := s.allocTotal
    allocNewBlocks := s.allocNew
    reusedBlocks := s.reused }

/-- Modelled from the spec: the manager state right after pool allocation —
`nPrim` primary blocks followed by `nSec` secondary blocks in the arena,
all free, all counters zero, no sequences (spec sections 2 and 3). -/
def initState (nPrim nSec tpb maxBW maxSeq : Nat) (reuse : Bool) : KVState :=
  { blocks :=
      List.replicate nPrim
        { isPrimary := true, refCount := 0, schedRefCount := 0, isFull := false,
          blockKey := ⟨0, []⟩, prevBlock := none, nextBlocks := [] } ++
      List.replicate nSec
        { isPrimary := false, refCount := 0, schedRefCount := 0, isFull := false,
          blockKey := ⟨0, []⟩, prevBlock := none, nextBlocks := [] },
    freePrimary := List.range nPrim,
    freeSecondary := (List.range nSec).map (fun i => nPrim + i),
    rootNext := [], allocTotal := 0, allocNew := 0, reused := 0,
    schedNumFree := 0, tokensPerBlock := tpb, maxBeamWidth := maxBW,
    maxNumSequences := maxSeq, enableBlockReuse := reuse,
    seqs := List.replicate maxSeq none }

/-- States reachable from an initial state through the modelled manager
operations. -/
inductive Reachable : KVState → Prop where
  | init (nPrim nSec tpb maxBW maxSeq : Nat) (reuse : Bool) :
      Reachable (initState nPrim nSec tpb maxBW maxSeq reuse)
  | addSeq {s : KVState} (slot il bw : Nat) (req : Option (Nat × List UniqueToken))
      (h : Reachable s) : Reachable (addSequenceOp s slot il bw req).1
  | addTok {s : KVState} (slot : Nat) (h : Reachable s) :
      Reachable (addTokenOp s slot).1
  | allocBlock {s : KVState} (slot : Nat) (h : Reachable s) :
      Reachable (allocateBlockShared s slot).1
  | removeSeq {s : KVState} (slot : Nat) (req : Option (Nat × List UniqueToken))
      (h : Reachable s) : Reachable (removeSequenceOp s slot req)
  | startSched {s : KVState} (h : Reachable s) : Reachable (startSchedulingOp s)
  | schedRelease {s : KVState} (slot : Nat) (h : Reachable s) :
      Reachable (schedulingReleaseBlocksOp s slot)

/-- The three lifetime counters of the block manager, bundled. -/
def counterView (s : KVState) : Nat × Nat × Nat :=
  (s.allocTotal, s.allocNew, s.reused)

theorem setBlock_counterView (s : KVState) (id : Nat) (b : Block) :
    counterView (setBlock s id b) = counterView s := rfl

theorem releaseBlock_counterView (s : KVState) (id : Nat) (f : Bool) :
    counterView (releaseBlock s id f) = counterView s := by
  unfold releaseBlock
  split <;> rfl

theorem addChild_counterView (s : KVState) (p : ParentRef) (k : BlockKey)
    (id : Nat) : counterView (addChild s p k id) = counterView s := by
  unfold addChild
  split
  · rfl
  · split <;> rfl

theorem removeChild_counterView (s : KVState) (p : ParentRef) (k : BlockKey) :
    counterView (removeChild s p k) = counterView s := by
  unfold removeChild
  split
  · rfl
  · split <;> rfl

theorem unlinkParent_counterView (s : KVState) (b : Block) :
    counterView (unlinkParent s b) = counterView s := by
  unfold unlinkParent
  split
  · rfl
  · exact removeChild_counterView _ _ _

theorem unlinkBlock_counterView (s : KVState) (id : Nat) :
    counterView (unlinkBlock s id) = counterView s := by
  unfold unlinkBlock
  split
  · rfl
  · exact unlinkParent_counterView _ _

theorem storeLink_counterView (s : KVState) (p : ParentRef) (k : BlockKey)
    (id : Nat) : counterView (storeLink s p k id) = counterView s := by
  unfold storeLink
  split <;> rfl

theorem storeBlock_counterView (s : KVState) (p : ParentRef) (k : BlockKey)
    (id : Nat) : counterView (storeBlock s p k id) = counterView s := by
  unfold storeBlock
  split
  · rfl
  · rw [storeLink_counterView, addChild_counterView]

theorem incRefCount_counterView (s : KVState) (id : Nat) :
    counterView (incRefCount s id) = counterView s := by
  unfold incRefCount
  split <;> rfl

theorem setSeq_counterView (s : KVState) (slot : Nat) (g : Option GenReq) :
    counterView (setSeq s slot g) = counterView s := rfl

theorem appendBlockAllBeams_counterView (s : KVState) (slot id : Nat) :
    counterView (appendBlockAllBeams s slot id) = counterView s := by
  unfold appendBlockAllBeams
  split <;> rfl

theorem releaseOne_counterView (hasKey : Bool) (p : ParentRef) (k : BlockKey)
    (s : KVState) (id : Nat) :
    counterView (releaseOne hasKey p k s id) = counterView s := by
  unfold releaseOne
  split
  · rfl
  · split
    · split
      · rw [releaseBlock_counterView, storeBlock_counterView]
        rfl
      · rw [releaseBlock_counterView, unlinkBlock_counterView]
        rfl
    · rfl

theorem releaseSeqBlocks_counterView :
    ∀ (ids : List Nat) (s : KVState) (parent : ParentRef)
      (keys : List BlockKey) (hasKey : Bool),
      counterView (releaseSeqBlocks s parent ids keys hasKey) = counterView s := by
  intro ids
  induction ids with
  | nil => intro s parent keys hasKey; cases keys <;> rfl
  | cons id ids' ih =>
    intro s parent keys hasKey
    cases keys with
    | nil =>
      show counterView (releaseSeqBlocks
        (releaseOne false parent ⟨0, []⟩ s id) (.block id) ids' [] false) = _
      rw [ih, releaseOne_counterView]
    | cons k keys' =>
      show counterView (releaseSeqBlocks
        (releaseOne hasKey parent k s id) (.block id) ids' keys' hasKey) = _
      rw [ih, releaseOne_counterView]

/-- The cumulative-counter identity of spec invariant I6. -/
def countersOk (s : KVState) : Prop := s.allocTotal = s.allocNew + s.reused

theorem counterView_countersOk {s s' : KVState}
    (h : counterView s' = counterView s) (hs : countersOk s) : countersOk s' := by
  unfold countersOk at *
  unfold counterView at h
  have h1 : s'.allocTotal = s.allocTotal := congrArg (fun t => t.1) h
  have h2 : s'.allocNew = s.allocNew := congrArg (fun t => t.2.1) h
  have h3 : s'.reused = s.reused := congrArg (fun t => t.2.2) h
  omega

theorem bumpFresh_countersOk (s : KVState) (h : countersOk s) :
    countersOk (bumpFresh s) := by
  show s.allocTotal + 1 = s.allocNew + 1 + s.reused
  unfold countersOk at h
  omega

theorem bumpReused_countersOk (s : KVState) (h : countersOk s) :
    countersOk (bumpReused s) := by
  show s.allocTotal + 1 = s.allocNew + (s.reused + 1)
  unfold countersOk at h
  omega

theorem getFreeBlock_countersOk (s : KVState) (r : Nat × KVState)
    (heq : getFreeBlock s = some r) (h : countersOk s) : countersOk r.2 := by
  unfold getFreeBlock at heq
  split at heq
  · cases heq
  · cases heq
    apply bumpFresh_countersOk
    apply counterView_countersOk _ h
    rw [incRefCount_counterView, unlinkBlock_counterView]
    rfl

theorem claimReusedBlock_countersOk (s : KVState) (id : Nat)
    (h : countersOk s) : countersOk (claimReusedBlock s id) := by
  unfold claimReusedBlock
  apply bumpReused_countersOk
  apply counterView_countersOk _ h
  rw [incRefCount_counterView, unlinkBlock_counterView]
  rfl

theorem allocFreshBlocks_countersOk :
    ∀ (n : Nat) (s : KVState), countersOk s →
      countersOk (allocFreshBlocks n s).1 := by
  intro n
  induction n with
  | zero => intro s h; exact h
  | succ m ih =>
    intro s h
    unfold allocFreshBlocks
    split
    · exact h
    · next id s1 heq =>
      exact ih s1 (getFreeBlock_countersOk s (id, s1) heq h)

theorem foldl_claimReused_countersOk (ids : List Nat) :
    ∀ s : KVState, countersOk s → countersOk (ids.foldl claimReusedBlock s) := by
  induction ids with
  | nil => intro s h; exact h
  | cons id ids' ih =>
    intro s h
    rw [List.foldl_cons]
    exact ih _ (claimReusedBlock_countersOk s id h)

theorem addSequenceOp_countersOk (s : KVState) (slot il bw : Nat)
    (req : Option (Nat × List UniqueToken)) (h : countersOk s) :
    countersOk (addSequenceOp s slot il bw req).1 := by
  unfold addSequenceOp
  split
  · exact h
  · split <;> dsimp only <;> (repeat' split)
    all_goals first
      | exact h
      | (apply counterView_countersOk (setSeq_counterView _ _ _)
         exact allocFreshBlocks_countersOk _ _ (foldl_claimReused_countersOk _ _ h))

theorem allocateBlockShared_countersOk (s : KVState) (slot : Nat)
    (h : countersOk s) : countersOk (allocateBlockShared s slot).1 := by
  unfold allocateBlockShared
  split
  · exact h
  · split
    · exact h
    · next r heq =>
      exact counterView_countersOk (appendBlockAllBeams_counterView _ _ _)
        (getFreeBlock_countersOk s r heq h)

theorem addTokenOp_countersOk (s : KVState) (slot : Nat) (h : countersOk s) :
    countersOk (addTokenOp s slot).1 := by
  unfold addTokenOp
  split
  · exact h
  · split
    · exact allocateBlockShared_countersOk _ _
        (counterView_countersOk (setSeq_counterView _ _ _) h)
    · exact counterView_countersOk (setSeq_counterView _ _ _) h

theorem removeSequenceOp_countersOk (s : KVState) (slot : Nat)
    (req : Option (Nat × List UniqueToken)) (h : countersOk s) :
    countersOk (removeSequenceOp s slot req) := by
  unfold removeSequenceOp
  split
  · exact h
  · apply counterView_countersOk (setSeq_counterView _ _ _)
    exact counterView_countersOk (releaseSeqBlocks_counterView _ _ _ _ _) h

theorem startSchedulingOp_countersOk (s : KVState) (h : countersOk s) :
    countersOk (startSchedulingOp s) := h

theorem schedReleaseOne_counterView (s : KVState) (id : Nat) :
    counterView (schedReleaseOne s id) = counterView s := by
  unfold schedReleaseOne
  split
  · rfl
  · split <;> rfl

theorem schedulingReleaseBlocksOp_countersOk (s : KVState) (slot : Nat)
    (h : countersOk s) : countersOk (schedulingReleaseBlocksOp s slot) := by
  unfold schedulingReleaseBlocksOp
  split
  · exact h
  · next g heq =>
    have : ∀ (ids : List Nat) (t : KVState), countersOk t →
        countersOk (ids.foldl schedReleaseOne t) := by
      intro ids
      induction ids with
      | nil => intro t ht; exact ht
      | cons id ids' ih =>
        intro t ht
        rw [List.foldl_cons]
        exact ih _ (counterView_countersOk (schedReleaseOne_counterView _ _) ht)
    exact this _ _ h

theorem reachable_countersOk {s : KVState} (h : Reachable s) : countersOk s := by
  induction h with
  | init nPrim nSec tpb maxBW maxSeq reuse => rfl
  | addSeq slot il bw req _ ih => exact addSequenceOp_countersOk _ _ _ _ _ ih
  | addTok slot _ ih => exact addTokenOp_countersOk _ _ ih
  | allocBlock slot _ ih => exact allocateBlockShared_countersOk _ _ ih
  | removeSeq slot req _ ih => exact removeSequenceOp_countersOk _ _ _ ih
  | startSched _ ih => exact startSchedulingOp_countersOk _ ih
  | schedRelease slot _ ih => exact schedulingReleaseBlocksOp_countersOk _ _ ih

/-- Claim C5: in every reachable manager state the stats satisfy
`usedNumBlocks + freeNumBlocks = maxNumBlocks` and
`allocTotalBlocks = allocNewBlocks + reusedBlocks`, the counters being
cumulative over the manager's lifetime. -/
theorem getKvCacheStats_identities (s : KVState) (h : Reachable s) :
    (getKvCacheStats s).usedNumBlocks + (getKvCacheStats s).freeNumBlocks =
      (getKvCacheStats s).maxNumBlocks ∧
    (getKvCacheStats s).allocTotalBlocks =
      (getKvCacheStats s).allocNewBlocks + (getKvCacheStats s).reusedBlocks := by
  constructor
  · show getNumAllocatedBlocks s + getNumFreeBlocks s = getMaxNumBlocks s
    unfold getNumAllocatedBlocks
    ring
  · have hc : countersOk s := reachable_countersOk h
    show (s.allocTotal : Int) = (s.allocNew : Int) + (s.reused : Int)
    exact_mod_cast hc

/-- Evaluation witness for claim C5 at an initial state with eight primary
and two secondary blocks. -/
theorem getKvCacheStats_identities_witness :
    (getKvCacheStats (initState 8 2 4 1 2 true)).usedNumBlocks +
      (getKvCacheStats (initState 8 2 4 1 2 true)).freeNumBlocks =
      (getKvCacheStats (initState 8 2 4 1 2 true)).maxNumBlocks ∧
    (getKvCacheStats (initState 8 2 4 1 2 true)).allocTotalBlocks =
      (getKvCacheStats (initState 8 2 4 1 2 true)).allocNewBlocks +
      (getKvCacheStats (initState 8 2 4 1 2 true)).reusedBlocks :=
  getKvCacheStats_identities (initState 8 2 4 1 2 true)
    (Reachable.init 8 2 4 1 2 true)

/-- The real (non-scheduling) fields of a block: pool residency, real
reference count, fullness, key, trie linkage. -/
def realBlockView (b : Block) :
    Bool × Nat × Bool × BlockKey × Option ParentRef × List (BlockKey × Nat) :=
  (b.isPrimary, b.refCount, b.isFull, b.blockKey, b.prevBlock, b.nextBlocks)

/-- The real state of the manager: everything except the two scheduling
counters — per-block real fields, both free queues, the trie root map,
the lifetime counters, and the sequence table. -/
def realView (s : KVState) :
    List (Bool × Nat × Bool × BlockKey × Option ParentRef × List (BlockKey × Nat)) ×
      List Nat × List Nat × List (BlockKey × Nat) × Nat × Nat × Nat ×
      List (Option GenReq) :=
  (s.blocks.map realBlockView, s.freePrimary, s.freeSecondary, s.rootNext,
   s.allocTotal, s.allocNew, s.reused, s.seqs)

theorem map_realBlockView_sched (l : List Block) :
    (l.map (fun b => { b with schedRefCount := b.refCount })).map realBlockView =
      l.map realBlockView := by
  induction l with
  | nil => rfl
  | cons x xs ih => simp only [List.map_cons, ih]; rfl

theorem map_realBlockView_set (l : List Block) (b b' : Block) :
    ∀ (id : Nat), l.get? id = some b → realBlockView b' = realBlockView b →
      (l.set id b').map realBlockView = l.map realBlockView := by
  induction l with
  | nil => intro id hb _; simp at hb
  | cons x xs ih =>
    intro id hb hview
    cases id with
    | zero =>
      have hx : x = b := by simpa using hb
      subst hx
      simp only [List.set, List.map_cons, hview]
    | succ j =>
      have hb' : xs.get? j = some b := by simpa using hb
      simp only [List.set, List.map_cons, ih j hb' hview]

theorem schedReleaseOne_realView (s : KVState) (id : Nat) :
    realView (schedReleaseOne s id) = realView s := by
  unfold schedReleaseOne
  split
  · rfl
  · next b hb =>
    split
    · show ((s.blocks.set id { b with schedRefCount := 0 }).map realBlockView,
        s.freePrimary, s.freeSecondary, s.rootNext, s.allocTotal, s.allocNew,
        s.reused, s.seqs) = realView s
      rw [map_realBlockView_set s.blocks b { b with schedRefCount := 0 } id hb rfl]
      rfl
    · show ((s.blocks.set id
          { b with schedRefCount := b.schedRefCount - 1 }).map realBlockView,
        s.freePrimary, s.freeSecondary, s.rootNext, s.allocTotal, s.allocNew,
        s.reused, s.seqs) = realView s
      rw [map_realBlockView_set s.blocks b
        { b with schedRefCount := b.schedRefCount - 1 } id hb rfl]
      rfl

theorem foldl_schedReleaseOne_realView (ids : List Nat) :
    ∀ s : KVState, realView (ids.foldl schedReleaseOne s) = realView s := by
  induction ids with
  | nil => intro s; rfl
  | cons id ids' ih =>
    intro s
    rw [List.foldl_cons, ih, schedReleaseOne_realView]

/-- Claim C8: `startScheduling` resets the scheduling free-block counter
and every block's scheduling reference count to their real-state twins,
and neither `startScheduling` nor `schedulingReleaseBlocks` changes any
real state: real reference counts, free queues, pools-residency, trie and
sequence table are untouched. -/
theorem scheduling_ops_frame (s : KVState) (slot : Nat) :
    (startSchedulingOp s).schedNumFree = s.freePrimary.length ∧
    (∀ i, ((startSchedulingOp s).blocks.get? i).map Block.schedRefCount =
          (s.blocks.get? i).map Block.refCount) ∧
    realView (startSchedulingOp s) = realView s ∧
    realView (schedulingReleaseBlocksOp s slot) = realView s := by
  refine ⟨rfl, ?_, ?_, ?_⟩
  · intro i
    show ((s.blocks.map (fun b => { b with schedRefCount := b.refCount })).get? i).map
      Block.schedRefCount = (s.blocks.get? i).map Block.refCount
    rw [List.get?_map]
    cases s.blocks.get? i <;> rfl
  · show ((s.blocks.map (fun b => { b with schedRefCount := b.refCount })).map
        realBlockView, s.freePrimary, s.freeSecondary, s.rootNext, s.allocTotal,
        s.allocNew, s.reused, s.seqs) = realView s
    rw [map_realBlockView_sched]
    rfl
  · unfold schedulingReleaseBlocksOp
    split
    · rfl
    · exact foldl_schedReleaseOne_realView _ _

theorem removeChild_seqs (s : KVState) (p : ParentRef) (k : BlockKey) :
    (removeChild s p k).seqs = s.seqs := by
  unfold removeChild
  split
  · rfl
  · split <;> rfl

theorem unlinkParent_seqs (s : KVState) (b : Block) :
    (unlinkParent s b).seqs = s.seqs := by
  unfold unlinkParent
  split
  · rfl
  · exact removeChild_seqs _ _ _

theorem unlinkBlock_seqs (s : KVState) (id : Nat) :
    (unlinkBlock s id).seqs = s.seqs := by
  unfold unlinkBlock
  split
  · rfl
  · exact unlinkParent_seqs _ _

theorem incRefCount_seqs (s : KVState) (id : Nat) :
    (incRefCount s id).seqs = s.seqs := by
  unfold incRefCount
  split <;> rfl

theorem getSeq_setSeq_self (s : KVState) (slot : Nat) (g : Option GenReq)
    (h : slot < s.seqs.length) : getSeq (setSeq s slot g) slot = g := by
  unfold getSeq setSeq
  show ((s.seqs.set slot g).get? slot).getD none = g
  rw [list_get?_set_self _ _ _ h]
  rfl

/-- Claim C6: `addToken` increments the sequence's token count by exactly
one, and a block is allocated for the beams exactly when the new token
count crosses a block boundary, i.e. `newCount % tokensPerBlock == 1`:
each beam's block list grows by one in that case and is unchanged
otherwise. -/
theorem addTokenOp_token_and_boundary (s : KVState) (slot : Nat) (g : GenReq)
    (hseq : getSeq s slot = some g) (hslot : slot < s.seqs.length)
    (hfree : s.freePrimary ≠ []) :
    ∃ g', getSeq (addTokenOp s slot).1 slot = some g' ∧
      g'.numTokens = g.numTokens + 1 ∧
      ∀ i, (g'.cacheBlockIds.get? i).map List.length =
        (g.cacheBlockIds.get? i).map
          (fun beam => beam.length +
            (if (g.numTokens + 1) % s.tokensPerBlock = 1 then 1 else 0)) := by
  unfold addTokenOp
  rw [hseq]
  dsimp only
  by_cases hcross : (g.numTokens + 1) % s.tokensPerBlock = 1
  · rw [if_pos hcross]
    set g1 : GenReq := { g with numTokens := g.numTokens + 1 } with hg1
    set s1 := setSeq s slot (some g1) with hs1
    have hseq1 : getSeq s1 slot = some g1 := getSeq_setSeq_self s slot (some g1) hslot
    unfold allocateBlockShared
    rw [hseq1]
    dsimp only
    obtain ⟨id, rest, hfp⟩ : ∃ id rest, s.freePrimary = id :: rest := by
      cases hl : s.freePrimary with
      | nil => exact absurd hl hfree
      | cons a l => exact ⟨a, l, rfl⟩
    have hfp1 : s1.freePrimary = id :: rest := hfp
    have hgf : getFreeBlock s1 = some (id,
        bumpFresh (incRefCount (unlinkBlock { s1 with freePrimary := rest } id) id)) := by
      unfold getFreeBlock
      rw [hfp1]
    rw [hgf]
    dsimp only
    set s2 := bumpFresh (incRefCount (unlinkBlock { s1 with freePrimary := rest } id) id)
      with hs2
    have hseqs2 : s2.seqs = s1.seqs := by
      rw [hs2]
      show (incRefCount (unlinkBlock { s1 with freePrimary := rest } id) id).seqs = s1.seqs
      rw [incRefCount_seqs, unlinkBlock_seqs]
    have hseq2 : getSeq s2 slot = some g1 := by
      unfold getSeq
      rw [hseqs2]
      exact hseq1
    unfold appendBlockAllBeams
    rw [hseq2]
    dsimp only
    have hslot2 : slot < s2.seqs.length := by
      rw [hseqs2]
      show slot < (s.seqs.set slot (some g1)).length
      rw [List.length_set]
      exact hslot
    refine ⟨{ g1 with cacheBlockIds := g1.cacheBlockIds.map (fun beam => beam ++ [id]) },
      getSeq_setSeq_self s2 slot _ hslot2, rfl, ?_⟩
    intro i
    show ((g.cacheBlockIds.map (fun beam => beam ++ [id])).get? i).map List.length = _
    rw [List.get?_map]
    cases g.cacheBlockIds.get? i with
    | none => rfl
    | some beam => simp [hcross]
  · rw [if_neg hcross]
    refine ⟨{ g with numTokens := g.numTokens + 1 },
      getSeq_setSeq_self s slot _ hslot, rfl, ?_⟩
    intro i
    cases g.cacheBlockIds.get? i with
    | none => rfl
    | some beam => simp [hcross]

/-- Evaluation witness for claim C6: a one-beam sequence holding one block
and four tokens with tokensPerBlock 4; the fifth token crosses into a new
block, so the beam grows to two blocks. -/
theorem addTokenOp_token_and_boundary_witness :
    ∃ g', getSeq (addTokenOp
      { blocks := [{ isPrimary := true, refCount := 0, schedRefCount := 0,
                     isFull := false, blockKey := ⟨0, []⟩,
                     prevBlock := none, nextBlocks := [] },
                   { isPrimary := true, refCount := 1, schedRefCount := 0,
                     isFull := true, blockKey := ⟨0, []⟩,
                     prevBlock := none, nextBlocks := [] }],
        freePrimary := [0], freeSecondary := [], rootNext := [],
        allocTotal := 1, allocNew := 1, reused := 0, schedNumFree := 0,
        tokensPerBlock := 4, maxBeamWidth := 1, maxNumSequences := 1,
        enableBlockReuse := false,
        seqs := [some { numTokens := 4, beamWidth := 1, cacheBlockIds := [[1]] }] }
      0).1 0 = some g' ∧
      g'.numTokens = 4 + 1 ∧
      ∀ i, (g'.cacheBlockIds.get? i).map List.length =
        (([[1]] : List (List Nat)).get? i).map
          (fun beam => beam.length + (if (4 + 1) % 4 = 1 then 1 else 0)) :=
  addTokenOp_token_and_boundary
    { blocks := [{ isPrimary := true, refCount := 0, schedRefCount := 0,
                   isFull := false, blockKey := ⟨0, []⟩,
                   prevBlock := none, nextBlocks := [] },
                 { isPrimary := true, refCount := 1, schedRefCount := 0,
                   isFull := true, blockKey := ⟨0, []⟩,
                   prevBlock := none, nextBlocks := [] }],
      freePrimary := [0], freeSecondary := [], rootNext := [],
      allocTotal := 1, allocNew := 1, reused := 0, schedNumFree := 0,
      tokensPerBlock := 4, maxBeamWidth := 1, maxNumSequences := 1,
      enableBlockReuse := false,
      seqs := [some { numTokens := 4, beamWidth := 1, cacheBlockIds := [[1]] }] }
    0 { numTokens := 4, beamWidth := 1, cacheBlockIds := [[1]] }
    (by decide) (by decide) (by decide)

/-- Claim C7: `addSequence` with out-of-bounds arguments fails with
`InvalidArgument` returning the state untouched, and `allocateBlock` with
the capacity exhausted (empty free queue) fails with `CapacityExhausted`
leaving the state — including the owning sequence's block lists —
exactly as before. -/
theorem failure_paths_leave_state (s : KVState) (slot il bw : Nat)
    (req : Option (Nat × List UniqueToken)) (g : GenReq)
    (hbad : il < 1 ∨ s.maxBeamWidth < bw ∨ s.maxNumSequences ≤ slot)
    (hseq : getSeq s slot = some g) (hfull : s.freePrimary = []) :
    addSequenceOp s slot il bw req = (s, some KVErr.invalidArgument) ∧
    allocateBlockShared s slot = (s, some KVErr.capacityExhausted) := by
  constructor
  · unfold addSequenceOp
    rw [if_pos hbad]
  · unfold allocateBlockShared
    rw [hseq]
    dsimp only
    have hgf : getFreeBlock s = none := by
      unfold getFreeBlock
      rw [hfull]
    rw [hgf]

/-- Evaluation witness for claim C7: an exhausted manager (no free block)
holding one sequence, probed with an invalid input length of zero. -/
theorem failure_paths_leave_state_witness :
    addSequenceOp
      { blocks := [{ isPrimary := true, refCount := 1, schedRefCount := 0,
                     isFull := false, blockKey := ⟨0, []⟩,
                     prevBlock := none, nextBlocks := [] }],
        freePrimary := [], freeSecondary := [], rootNext := [],
        allocTotal := 1, allocNew := 1, reused := 0, schedNumFree := 0,
        tokensPerBlock := 4, maxBeamWidth := 1, maxNumSequences := 1,
        enableBlockReuse := false,
        seqs := [some { numTokens := 4, beamWidth := 1, cacheBlockIds := [[0]] }] }
      0 0 1 none =
      ({ blocks := [{ isPrimary := true, refCount := 1, schedRefCount := 0,
                      isFull := false, blockKey := ⟨0, []⟩,
                      prevBlock := none, nextBlocks := [] }],
         freePrimary := [], freeSecondary := [], rootNext := [],
         allocTotal := 1, allocNew := 1, reused := 0, schedNumFree := 0,
         tokensPerBlock := 4, maxBeamWidth := 1, maxNumSequences := 1,
         enableBlockReuse := false,
         seqs := [some { numTokens := 4, beamWidth := 1, cacheBlockIds := [[0]] }] },
       some KVErr.invalidArgument) ∧
    allocateBlockShared
      { blocks := [{ isPrimary := true, refCount := 1, schedRefCount := 0,
                     isFull := false, blockKey := ⟨0, []⟩,
                     prevBlock := none, nextBlocks := [] }],
        freePrimary := [], freeSecondary := [], rootNext := [],
        allocTotal := 1, allocNew := 1, reused := 0, schedNumFree := 0,
        tokensPerBlock := 4, maxBeamWidth := 1, maxNumSequences := 1,
        enableBlockReuse := false,
        seqs := [some { numTokens := 4, beamWidth := 1, cacheBlockIds := [[0]] }] }
      0 =
      ({ blocks := [{ isPrimary := true, refCount := 1, schedRefCount := 0,
                      isFull := false, blockKey := ⟨0, []⟩,
                      prevBlock := none, nextBlocks := [] }],
         freePrimary := [], freeSecondary := [], rootNext := [],
         allocTotal := 1, allocNew := 1, reused := 0, schedNumFree := 0,
         tokensPerBlock := 4, maxBeamWidth := 1, maxNumSequences := 1,
         enableBlockReuse := false,
         seqs := [some { numTokens := 4, beamWidth := 1, cacheBlockIds := [[0]] }] },
       some KVErr.capacityExhausted) :=
  failure_paths_leave_state
    { blocks := [{ isPrimary := true, refCount := 1, schedRefCount := 0,
                   isFull := false, blockKey := ⟨0, []⟩,
                   prevBlock := none, nextBlocks := [] }],
      freePrimary := [], freeSecondary := [], rootNext := [],
      allocTotal := 1, allocNew := 1, reused := 0, schedNumFree := 0,
      tokensPerBlock := 4, maxBeamWidth := 1, maxNumSequences := 1,
      enableBlockReuse := false,
      seqs := [some { numTokens := 4, beamWidth := 1, cacheBlockIds := [[0]] }] }
    0 0 1 none { numTokens := 4, beamWidth := 1, cacheBlockIds := [[0]] }
    (by decide) (by decide) (by decide)

/-- Number of blocks of the arena resident in the secondary pool. -/
def numSecondaryBlocks (s : KVState) : Nat :=
  (s.blocks.filter (fun b => !b.isPrimary)).length

theorem list_get?_set_ne {α : Type} (l : List α) (i j : Nat) (a : α)
    (h : i ≠ j) : (l.set i a).get? j = l.get? j := by
  induction l generalizing i j with
  | nil => simp
  | cons x xs ih =>
    cases i with
    | zero =>
      cases j with
      | zero => exact absurd rfl h
      | succ j' => rfl
    | succ i' =>
      cases j with
      | zero => rfl
      | succ j' => simpa using ih i' j' (fun he => h (by rw [he]))

theorem countP_set_true_false (q : Block → Bool) :
    ∀ (l : List Block) (i : Nat) (b b' : Block), l.get? i = some b →
      q b = true → q b' = false →
      l.countP q = (l.set i b').countP q + 1 := by
  intro l
  induction l with
  | nil => intro i b b' hb _ _; simp at hb
  | cons x xs ih =>
    intro i b b' hb hqb hqb'
    cases i with
    | zero =>
      have hx : x = b := by simpa using hb
      subst hx
      simp [List.set, List.countP_cons, hqb, hqb']
    | succ j =>
      have hb' : xs.get? j = some b := by simpa using hb
      simp only [List.set, List.countP_cons]
      rw [ih j b b' hb' hqb hqb']
      ring

theorem nodup_indices_le_countP (q : Block → Bool) (dummy : Block)
    (hdq : q dummy = false) :
    ∀ (ids : List Nat) (l : List Block), ids.Nodup →
      (∀ id ∈ ids, ∃ b, l.get? id = some b ∧ q b = true) →
      ids.length ≤ l.countP q := by
  intro ids
  induction ids with
  | nil => intro l _ _; simp
  | cons id rest ih =>
    intro l hnd hmem
    obtain ⟨b, hb, hqb⟩ := hmem id (List.mem_cons_self _ _)
    have hrest : ∀ j ∈ rest, ∃ c, (l.set id dummy).get? j = some c ∧ q c = true := by
      intro j hj
      have hne : j ≠ id := by
        intro he
        subst he
        exact (List.nodup_cons.mp hnd).1 hj
      obtain ⟨c, hc, hqc⟩ := hmem j (List.mem_cons_of_mem _ hj)
      refine ⟨c, ?_, hqc⟩
      rw [list_get?_set_ne _ _ _ _ (Ne.symm hne)]
      exact hc
    have hIH := ih (l.set id dummy) (List.nodup_cons.mp hnd).2 hrest
    have hcount := countP_set_true_false q l id b dummy hb hqb hdq
    simp only [List.length_cons]
    omega

theorem countP_primary_add_not (l : List Block) :
    l.countP (fun b => b.isPrimary) + l.countP (fun b => !b.isPrimary) = l.length := by
  induction l with
  | nil => rfl
  | cons x xs ih =>
    simp only [List.countP_cons]
    cases hx : x.isPrimary <;> simp [hx] <;> omega

/-- Claim C10: `freeNumBlocks` counts only the primary free queue,
`maxNumBlocks` counts the whole arena (both pools), `usedNumBlocks` is
their difference; consequently, in a well-formed state (free queue
holds distinct ids of primary-resident blocks) every secondary-resident
block is reported as used. -/
theorem stats_free_counts_only_primary (s : KVState)
    (hnd : s.freePrimary.Nodup)
    (hmem : ∀ id ∈ s.freePrimary,
      (s.blocks.get? id).map Block.isPrimary = some true) :
    (getKvCacheStats s).freeNumBlocks = (s.freePrimary.length : Int) ∧
    (getKvCacheStats s).maxNumBlocks = (s.blocks.length : Int) ∧
    (getKvCacheStats s).usedNumBlocks =
      (s.blocks.length : Int) - (s.freePrimary.length : Int) ∧
    (numSecondaryBlocks s : Int) ≤ (getKvCacheStats s).usedNumBlocks := by
  refine ⟨rfl, rfl, rfl, ?_⟩
  have hmem' : ∀ id ∈ s.freePrimary,
      ∃ b, s.blocks.get? id = some b ∧ (fun b => b.isPrimary) b = true := by
    intro id hid
    have h := hmem id hid
    cases hg : s.blocks.get? id with
    | none => rw [hg] at h; cases h
    | some b =>
      rw [hg] at h
      exact ⟨b, rfl, by simpa using h⟩
  have h1 : s.freePrimary.length ≤ s.blocks.countP (fun b => b.isPrimary) :=
    nodup_indices_le_countP _
      { isPrimary := false, refCount := 0, schedRefCount := 0, isFull := false,
        blockKey := ⟨0, []⟩, prevBlock := none, nextBlocks := [] }
      rfl s.freePrimary s.blocks hnd hmem'
  have h2 := countP_primary_add_not s.blocks
  have h3 : numSecondaryBlocks s = s.blocks.countP (fun b => !b.isPrimary) := by
    unfold numSecondaryBlocks
    rw [List.countP_eq_length_filter]
  show (numSecondaryBlocks s : Int) ≤
    (s.blocks.length : Int) - (s.freePrimary.length : Int)
  omega

/-- Evaluation witness for claim C10: one primary and one secondary block,
the primary free, the secondary unreferenced; used is one. -/
theorem stats_free_counts_only_primary_witness :
    (getKvCacheStats
      { blocks := [{ isPrimary := true, refCount := 0, schedRefCount := 0,
                     isFull := false, blockKey := ⟨0, []⟩,
                     prevBlock := none, nextBlocks := [] },
                   { isPrimary := false, refCount := 0, schedRefCount := 0,
                     isFull := false, blockKey := ⟨0, []⟩,
                     prevBlock := none, nextBlocks := [] }],
        freePrimary := [0], freeSecondary := [1], rootNext := [],
        allocTotal := 0, allocNew := 0, reused := 0, schedNumFree := 0,
        tokensPerBlock := 4, maxBeamWidth := 1, maxNumSequences := 1,
        enableBlockReuse := true, seqs := [none] }).usedNumBlocks =
      (2 : Int) - (1 : Int) ∧
    (numSecondaryBlocks
      { blocks := [{ isPrimary := true, refCount := 0, schedRefCount := 0,
                     isFull := false, blockKey := ⟨0, []⟩,
                     prevBlock := none, nextBlocks := [] },
                   { isPrimary := false, refCount := 0, schedRefCount := 0,
                     isFull := false, blockKey := ⟨0, []⟩,
                     prevBlock := none, nextBlocks := [] }],
        freePrimary := [0], freeSecondary := [1], rootNext := [],
        allocTotal := 0, allocNew := 0, reused := 0, schedNumFree := 0,
        tokensPerBlock := 4, maxBeamWidth := 1, maxNumSequences := 1,
        enableBlockReuse := true, seqs := [none] } : Int) ≤
    (getKvCacheStats
      { blocks := [{ isPrimary := true, refCount := 0, schedRefCount := 0,
                     isFull := false, blockKey := ⟨0, []⟩,
                     prevBlock := none, nextBlocks := [] },
                   { isPrimary := false, refCount := 0, schedRefCount := 0,
                     isFull := false, blockKey := ⟨0, []⟩,
                     prevBlock := none, nextBlocks := [] }],
        freePrimary := [0], freeSecondary := [1], rootNext := [],
        allocTotal := 0, allocNew := 0, reused := 0, schedNumFree := 0,
        tokensPerBlock := 4, maxBeamWidth := 1, maxNumSequences := 1,
        enableBlockReuse := true, seqs := [none] }).usedNumBlocks :=
  let sWit : KVState :=
    { blocks := [{ isPrimary := true, refCount := 0, schedRefCount := 0,
                   isFull := false, blockKey := ⟨0, []⟩,
                   prevBlock := none, nextBlocks := [] },
                 { isPrimary := false, refCount := 0, schedRefCount := 0,
                   isFull := false, blockKey := ⟨0, []⟩,
                   prevBlock := none, nextBlocks := [] }],
      freePrimary := [0], freeSecondary := [1], rootNext := [],
      allocTotal := 0, allocNew := 0, reused := 0, schedNumFree := 0,
      tokensPerBlock := 4, maxBeamWidth := 1, maxNumSequences := 1,
      enableBlockReuse := true, seqs := [none] }
  ⟨(stats_free_counts_only_primary sWit (by decide) (by decide)).2.2.1,
    (stats_free_counts_only_primary sWit (by decide) (by decide)).2.2.2⟩

end KVCache
